import Mathlib

/-!
Verification of the OAuth credential lifecycle and impersonator action
pipeline of the `webapp` package (files `oauth10a.py`, `oauth10areport.py`,
`oauth20pkce.py`, `models.py`).

The Python source is shallowly embedded: each relevant route / helper
function becomes an executable Lean function over explicit state
(databases are lists of records, the browser session and the HTTP query
string are structures of `Option String` fields, remote HTTP calls are
supplied as explicit response values).  Machine arithmetic of the SHA-256
computation is done on `Nat` with explicit reduction modulo `2 ^ 32`.
-/

/-! ## Small helpers -/

/-- Python truthiness for the optional strings produced by
`request.args.get(...)` / `session.get(...)`: `None` and the empty string
are falsy, every other string is truthy. -/
def pyTruthy : Option String → Bool
  | none => false
  | some s => s ≠ ""

/-- Replace the first element of the list satisfying `p` by its image
under `f` (the effect of mutating the record returned by
`query.filter_by(...).first()` and committing). -/
def updateFirst (p : α → Bool) (f : α → α) : List α → List α
  | [] => []
  | x :: xs => if p x then f x :: xs else x :: updateFirst p f xs

/-- Check whether the second list occurs as a leading segment of the
first. -/
def listBeginsWith : List Char → List Char → Bool
  | _, [] => true
  | [], _ :: _ => false
  | x :: xs, y :: ys => x == y && listBeginsWith xs ys

/-- Check whether `pat` occurs as a contiguous segment of the list. -/
def listContainsSub (pat : List Char) : List Char → Bool
  | [] => pat.isEmpty
  | c :: rest => listBeginsWith (c :: rest) pat || listContainsSub pat rest

/-- Substring test, modelling Python's `needle in haystack`. -/
def containsSubstr (haystack needle : String) : Bool :=
  listContainsSub needle.data haystack.data

/-! ## SHA-256 (`hashlib.sha256`), on byte lists

Executable embedding of the SHA-256 function used by the source to derive
the PKCE code challenge.  Words are `Nat`s reduced modulo `2 ^ 32`. -/

/-- Reduce to a 32-bit word. -/
def w32 (x : Nat) : Nat := x % 4294967296

/-- Right rotation of a 32-bit word. -/
def rotr (n x : Nat) : Nat := w32 ((x >>> n) ||| (x <<< (32 - n)))

def sha256Ch (x y z : Nat) : Nat := (x &&& y) ^^^ ((x ^^^ 4294967295) &&& z)

def sha256Maj (x y z : Nat) : Nat := (x &&& y) ^^^ (x &&& z) ^^^ (y &&& z)

def bigSigma0 (x : Nat) : Nat := rotr 2 x ^^^ rotr 13 x ^^^ rotr 22 x

def bigSigma1 (x : Nat) : Nat := rotr 6 x ^^^ rotr 11 x ^^^ rotr 25 x

def smallSigma0 (x : Nat) : Nat := rotr 7 x ^^^ rotr 18 x ^^^ (x >>> 3)

def smallSigma1 (x : Nat) : Nat := rotr 17 x ^^^ rotr 19 x ^^^ (x >>> 10)

/-- The 64 SHA-256 round constants. -/
def sha256K : List Nat :=
  [1116352408, 1899447441, 3049323471, 3921009573,
   961987163, 1508970993, 2453635748, 2870763221,
   3624381080, 310598401, 607225278, 1426881987,
   1925078388, 2162078206, 2614888103, 3248222580,
   3835390401, 4022224774, 264347078, 604807628,
   770255983, 1249150122, 1555081692, 1996064986,
   2554220882, 2821834349, 2952996808, 3210313671,
   3336571891, 3584528711, 113926993, 338241895,
   666307205, 773529912, 1294757372, 1396182291,
   1695183700, 1986661051, 2177026350, 2456956037,
   2730485921, 2820302411, 3259730800, 3345764771,
   3516065817, 3600352804, 4094571909, 275423344,
   430227734, 506948616, 659060556, 883997877,
   958139571, 1322822218, 1537002063, 1747873779,
   1955562222, 2024104815, 2227730452, 2361852424,
   2428436474, 2756734187, 3204031479, 3329325298]

/-- Working state of one SHA-256 compression. -/
structure Hash8 where
  a : Nat
  b : Nat
  c : Nat
  d : Nat
  e : Nat
  f : Nat
  g : Nat
  h : Nat

/-- The SHA-256 initial hash value. -/
def sha256H0 : Hash8 :=
  ⟨1779033703, 3144134277, 1013904242, 2773480762, 1359893119, 2600822924, 528734635, 1541459225⟩

/-- One step of message-schedule extension; the list holds the schedule
so far, most recent word first. -/
def schedStep (ws : List Nat) : List Nat :=
  w32 (smallSigma1 (ws.getD 1 0) + ws.getD 6 0 + smallSigma0 (ws.getD 14 0) + ws.getD 15 0) :: ws

/-- Extend the 16 block words to the 64-entry message schedule. -/
def sha256Schedule (block : List Nat) : List Nat :=
  ((List.range 48).foldl (fun ws _ => schedStep ws) block.reverse).reverse

/-- One round of the SHA-256 compression function. -/
def compressStep (st : Hash8) (kw : Nat × Nat) : Hash8 :=
  let t1 := w32 (st.h + bigSigma1 st.e + sha256Ch st.e st.f st.g + kw.1 + kw.2)
  let t2 := w32 (bigSigma0 st.a + sha256Maj st.a st.b st.c)
  ⟨w32 (t1 + t2), st.a, st.b, st.c, w32 (st.d + t1), st.e, st.f, st.g⟩

/-- Process one 64-byte block (given as 16 big-endian words). -/
def sha256Block (st : Hash8) (block : List Nat) : Hash8 :=
  let fin := (List.zip sha256K (sha256Schedule block)).foldl compressStep st
  ⟨w32 (st.a + fin.a), w32 (st.b + fin.b), w32 (st.c + fin.c), w32 (st.d + fin.d),
   w32 (st.e + fin.e), w32 (st.f + fin.f), w32 (st.g + fin.g), w32 (st.h + fin.h)⟩

/-- SHA-256 padding: append `0x80`, zeros, and the 8-byte big-endian bit
length, so that the total length is a multiple of 64 bytes. -/
def sha256Pad (msg : List Nat) : List Nat :=
  let z := (119 - msg.length % 64) % 64
  let bits := 8 * msg.length
  msg ++ 0x80 :: List.replicate z 0 ++
    [bits >>> 56 % 256, bits >>> 48 % 256, bits >>> 40 % 256, bits >>> 32 % 256,
     bits >>> 24 % 256, bits >>> 16 % 256, bits >>> 8 % 256, bits % 256]

/-- Big-endian word from (up to) four bytes. -/
def beWord (bs : List Nat) : Nat :=
  bs.getD 0 0 * 16777216 + bs.getD 1 0 * 65536 + bs.getD 2 0 * 256 + bs.getD 3 0

/-- Split a padded message into 64-byte blocks of 16 big-endian words. -/
def sha256Blocks (padded : List Nat) : List (List Nat) :=
  (List.range (padded.length / 64)).map fun i =>
    (List.range 16).map fun j => beWord (((padded.drop (64 * i + 4 * j)).take 4))

/-- Big-endian bytes of a 32-bit word. -/
def wordBytes (w : Nat) : List Nat := [w >>> 24 % 256, w >>> 16 % 256, w >>> 8 % 256, w % 256]

/-- SHA-256 digest (32 bytes) of a byte list. -/
def sha256 (msg : List Nat) : List Nat :=
  let fin := (sha256Blocks (sha256Pad msg)).foldl sha256Block sha256H0
  wordBytes fin.a ++ wordBytes fin.b ++ wordBytes fin.c ++ wordBytes fin.d ++
    wordBytes fin.e ++ wordBytes fin.f ++ wordBytes fin.g ++ wordBytes fin.h

/-! ## Base64url (`base64.urlsafe_b64encode`) -/

/-- The URL-safe base64 alphabet. -/
def b64urlAlphabet : List Char :=
  "ABCDEFGHIJKLMNOPQRSTUVWXYZabcdefghijklmnopqrstuvwxyz0123456789-_".data

def b64char (n : Nat) : Char := b64urlAlphabet.getD n 'A'

/-- Python's `base64.urlsafe_b64encode` on a byte list, producing characters
(including `'='` padding). -/
def base64urlEncode : List Nat → List Char
  | b0 :: b1 :: b2 :: rest =>
      let n := b0 * 65536 + b1 * 256 + b2
      b64char (n / 262144) :: b64char (n / 4096 % 64) :: b64char (n / 64 % 64) ::
        b64char (n % 64) :: base64urlEncode rest
  | [b0, b1] =>
      let n := b0 * 65536 + b1 * 256
      [b64char (n / 262144), b64char (n / 4096 % 64), b64char (n / 64 % 64), '=']
  | [b0] =>
      let n := b0 * 65536
      [b64char (n / 262144), b64char (n / 4096 % 64), '=', '=']
  | [] => []

/-- Python's `str.rstrip('=')` on a character list. -/
def rstripEq (l : List Char) : List Char := (l.reverse.dropWhile (· == '=')).reverse

/-! ## PKCE verifier and challenge generation
(`oauth20pkce.py` lines 38-59, duplicated at `oauth10a.py` lines 228-229) -/

/-- The unreserved URL-safe alphabet the verifier is drawn from
(the literal string passed to `secrets.choice`). -/
def unreservedAlphabet : List Char :=
  "ABCDEFGHIJKLMNOPQRSTUVWXYZabcdefghijklmnopqrstuvwxyz0123456789-._~".data

/-- The verifier `''.join(secrets.choice(alphabet) for _ in range(128))`: the random
choices are supplied as a function giving, for each of the 128 draws, an
index into the 66-character alphabet. -/
def gen_code_verifier (choice : Nat → Fin 66) : String :=
  String.mk ((List.range 128).map fun i => unreservedAlphabet.getD (choice i) ' ')

/-- The challenge `base64.urlsafe_b64encode(hashlib.sha256(verifier.encode()).digest()).decode().rstrip('=')`.
The verifier is ASCII (drawn from `unreservedAlphabet`), so its UTF-8
encoding is the list of its character codes. -/
def derive_code_challenge (verifier : String) : String :=
  String.mk (rstripEq (base64urlEncode (sha256 (verifier.data.map Char.toNat))))

/-- The (verifier, challenge) pair generated by `oauth20pkce_index`. -/
def oauth20pkce_index_secrets (choice : Nat → Fin 66) : String × String :=
  let v := gen_code_verifier choice
  (v, derive_code_challenge v)

/-! ## Impersonator action pipeline (`oauth10areport.py`)

`oauth10areportimpersonators` (lines 39-130) walks the target list and,
per target, attempts mute, block and report; `impersonatingusers`
(lines 136-223) attempts only mute and report.  Each HTTP POST is
modelled by a `CallResult` supplied from outside: either the call raised
an exception (`exn`, e.g. a transport error) or it returned a response
with a status code, a body text and a flag telling whether
`response.json()` parses. -/

/-- Result of one `oauth.post(...)` call. -/
inductive CallResult where
  | exn (msg : String)
  | resp (status : Nat) (text : String) (jsonOk : Bool)
deriving DecidableEq, Repr

inductive ActionKind where
  | mute
  | block
  | report
deriving DecidableEq, Repr

/-- Why an action was logged as a failure. -/
inductive FailReason where
  | transportError (msg : String)
  | httpStatusError (status : Nat)
  | non200 (status : Nat) (text : String)
deriving DecidableEq, Repr

/-- One element of the outcome log: the yields of
`oauth10areportimpersonators` resp. the strings/JSON bodies appended to
`response_list` by `impersonatingusers`. -/
inductive Entry where
  | succeeded (a : ActionKind) (imp : String)
  | failed (a : ActionKind) (imp : String) (reason : FailReason)
  | jsonData (imp : String) (body : String)
deriving DecidableEq, Repr

/-- Predicate for `requests.Response.raise_for_status()`: it raises exactly for status
codes in 400-599. -/
def raiseForStatusFails (status : Nat) : Bool := 400 ≤ status && status < 600

/-- The pattern `try: response = oauth.post(url); response.raise_for_status(); <ok>
except Exception as e: <failed>` — the pattern guarding the mute and
block calls. -/
def guardedActionEntry (a : ActionKind) (imp : String) : CallResult → Entry
  | .exn m => .failed a imp (.transportError m)
  | .resp s _ _ =>
      if raiseForStatusFails s then .failed a imp (.httpStatusError s)
      else .succeeded a imp

/-- One loop iteration of `oauth10areportimpersonators` (lines 93-128):
mute and block are guarded by `try/except`; the report POST is not, so an
exception there propagates, as does a `response.json()` decode failure.
Returns the entries yielded for this target and, when the iteration
raised, the uncaught exception message. -/
def processTargetReport (post : ActionKind → CallResult) (imp : String) :
    List Entry × Option String :=
  let muteE := guardedActionEntry .mute imp (post .mute)
  let blockE := guardedActionEntry .block imp (post .block)
  match post .report with
  | .exn m => ([muteE, blockE], some m)
  | .resp s t jsonOk =>
      let repE := if s ≠ 200 then Entry.failed .report imp (.non200 s t)
                  else Entry.succeeded .report imp
      if jsonOk then ([muteE, blockE, repE], none)
      else ([muteE, blockE, repE], some "JSONDecodeError")

/-- The whole run of `oauth10areportimpersonators` over the target list:
the outcome log (all entries produced) and, when some iteration raised,
the uncaught exception that aborted the run (the remaining targets are
skipped).  `post i a` is the response behaviour of the POST for action
`a` of the `i`-th target. -/
def runReportImpersonators (post : Nat → ActionKind → CallResult) :
    Nat → List String → List Entry × Option String
  | _, [] => ([], none)
  | i, imp :: rest =>
      match processTargetReport (post i) imp with
      | (es, some m) => (es, some m)
      | (es, none) =>
          let (tail, ab) := runReportImpersonators post (i + 1) rest
          (es ++ tail, ab)

/-- One loop iteration of `impersonatingusers` (lines 195-221): mute is
guarded; the report POST is not, and on a non-exceptional report the
parsed JSON body is appended as a further list element. -/
def processTargetIU (post : ActionKind → CallResult) (imp : String) :
    List Entry × Option String :=
  let muteE := guardedActionEntry .mute imp (post .mute)
  match post .report with
  | .exn m => ([muteE], some m)
  | .resp s t jsonOk =>
      let repE := if s ≠ 200 then Entry.failed .report imp (.non200 s t)
                  else Entry.succeeded .report imp
      if jsonOk then ([muteE, repE, .jsonData imp t], none)
      else ([muteE, repE], some "JSONDecodeError")

/-- The whole run of `impersonatingusers` over the target list. -/
def runImpersonatingUsers (post : Nat → ActionKind → CallResult) :
    Nat → List String → List Entry × Option String
  | _, [] => ([], none)
  | i, imp :: rest =>
      match processTargetIU (post i) imp with
      | (es, some m) => (es, some m)
      | (es, none) =>
          let (tail, ab) := runImpersonatingUsers post (i + 1) rest
          (es ++ tail, ab)

/-- The entry recorded for the report action from a non-raising
response: any status other than 200 is logged as a failure with the
provider's status and body. -/
def reportEntry (imp : String) : CallResult → Entry
  | .exn m => .failed .report imp (.transportError m)
  | .resp s t _ =>
      if s ≠ 200 then Entry.failed .report imp (.non200 s t)
      else Entry.succeeded .report imp

/-- Spec-side description of one target's outcome-log triple: mute, then
block, then report, each entry depending only on that target's own
calls. -/
def targetEntries (p : ActionKind → CallResult) (imp : String) : List Entry :=
  [guardedActionEntry .mute imp (p .mute), guardedActionEntry .block imp (p .block),
   reportEntry imp (p .report)]

/-- Spec-side description of the whole outcome log: the concatenation of
the per-target triples, in list order. -/
def pipelineLog (post : Nat → ActionKind → CallResult) : Nat → List String → List Entry
  | _, [] => []
  | i, imp :: rest => targetEntries (post i) imp ++ pipelineLog post (i + 1) rest

/-! ## OAuth 1.0a credential store (`models.py` class `OAuth10a`, table
`OAuth10a_3Legged`)

Columns as declared in `models.py` lines 67-111.  Unique constraints of
the table: `email` (primary key, unique) and `twitter_id` (unique).
There is no uniqueness constraint on `oauth_token_secret`, and no
`previous_twitter_account_info` column is declared; the history value
written by `update_existing_record` is modelled here as the structured
list the JSON text column would encode.  Timestamps are modelled as
integers (seconds). -/

/-- One archived prior-account snapshot (the `previous_info` dict of
`oauth10a.py` lines 351-358). -/
structure PrevAccountInfo where
  twitter_id : String
  account_name : String
  oauth_token : String
  oauth_token_secret : String
  oauth_verifier : String
  date_created : Int
deriving DecidableEq, Repr

/-- One row of the `OAuth10a_3Legged` table. -/
structure OAuth10aRecord where
  email : String
  twitter_id : String
  account_name : String
  date_created : Int
  last_token_refresh_date : Option Int
  oauth_verifier : String
  oauth_token : String
  oauth_token_secret : String
  previous_twitter_account_info : List PrevAccountInfo
deriving DecidableEq, Repr

/-- One row of the `All_Users` table (the columns the callback touches;
`password` is `nullable=False`, so committing a row without it violates
the NOT NULL constraint). -/
structure UserRecord where
  email : String
  twitter_id : Option String
  account_name : String
  password : Option String
deriving DecidableEq, Repr

/-- All strings in the list pairwise distinct (a UNIQUE column check). -/
def distinctStrings : List String → Bool
  | [] => true
  | x :: xs => !xs.contains x && distinctStrings xs

/-- Commit-time constraint check for the two tables the 1.0a callback
writes: `OAuth10a_3Legged` has unique `email` and `twitter_id`;
`All_Users` has unique `email`, `twitter_id` (nullable) and
`account_name`, and `password` is NOT NULL. -/
def oauth10aDbOk (odb : List OAuth10aRecord) (udb : List UserRecord) : Bool :=
  distinctStrings (odb.map (·.email)) && distinctStrings (odb.map (·.twitter_id)) &&
    distinctStrings (udb.map (·.email)) && distinctStrings (udb.filterMap (·.twitter_id)) &&
    distinctStrings (udb.map (·.account_name)) && udb.all (·.password.isSome)

/-! ### `update_existing_entry` (`oauth10a.py` lines 286-331) -/

/-- Embedding of `update_existing_entry`: find the row matching both the
incoming `oauth_token` and `oauth_token_secret` and refresh it in place,
also setting `date_created` from the incoming data and
`last_token_refresh_date` to now.  Its internal commit can introduce no
new uniqueness violation (neither `email` nor `twitter_id` is touched),
so the commit is modelled as always succeeding. -/
def update_existing_entry (now : Int) (s : OAuth10aRecord)
    (db : List OAuth10aRecord) : List OAuth10aRecord :=
  updateFirst
    (fun r => r.oauth_token_secret == s.oauth_token_secret && r.oauth_token == s.oauth_token)
    (fun r => { r with
      oauth_verifier := s.oauth_verifier
      account_name := s.account_name
      oauth_token := s.oauth_token
      oauth_token_secret := s.oauth_token_secret
      date_created := s.date_created
      last_token_refresh_date := some now }) db

/-! ### `update_existing_record` (`oauth10a.py` lines 336-389) -/

/-- The prior-state snapshot archived by `update_existing_record`. -/
def archiveSnapshot (r : OAuth10aRecord) : PrevAccountInfo :=
  ⟨r.twitter_id, r.account_name, r.oauth_token, r.oauth_token_secret,
   r.oauth_verifier, r.date_created⟩

/-- The per-record mutation of `update_existing_record` (lines 347-386):
the archive branch is guarded by
`existing_record.twitter_id != set_to_database.twitter_id`, then all
fields (including `email`) are overwritten and
`last_token_refresh_date` set to now.  Appending to the JSON history
column is modelled as appending to the snapshot list (both the
empty-history and the existing-list branches of the source append one
snapshot). -/
def overwrite10a (now : Int) (s r : OAuth10aRecord) : OAuth10aRecord :=
  let r1 := if r.twitter_id ≠ s.twitter_id then
      { r with previous_twitter_account_info :=
          r.previous_twitter_account_info ++ [archiveSnapshot r] }
    else r
  { r1 with
    twitter_id := s.twitter_id
    email := s.email
    account_name := s.account_name
    oauth_token := s.oauth_token
    oauth_token_secret := s.oauth_token_secret
    oauth_verifier := s.oauth_verifier
    last_token_refresh_date := some now }

/-- Embedding of `update_existing_record`: the row is selected by
`filter_by(twitter_id=set_to_database.twitter_id)` and mutated by
`overwrite10a`.  The function commits internally; if the mutation
violates a uniqueness constraint the commit raises and nothing is
persisted, returned here as the unchanged database together with the
error. -/
def update_existing_record (now : Int) (s : OAuth10aRecord)
    (db : List OAuth10aRecord) : List OAuth10aRecord × Option String :=
  match db.find? (fun r => r.twitter_id == s.twitter_id) with
  | none => (db, none)
  | some _ =>
      let db' := updateFirst (fun r => r.twitter_id == s.twitter_id) (overwrite10a now s) db
      if distinctStrings (db'.map (·.email)) && distinctStrings (db'.map (·.twitter_id)) then
        (db', none)
      else (db, some "UNIQUE constraint failed: OAuth10a_3Legged.email")

/-! ### `handle_integrity_error` (`oauth10a.py` lines 263-278) -/

/-- Embedding of `handle_integrity_error`: dispatch on the exception
text.  Returns the resulting database and whether the generic error page
was rendered instead of resolving the conflict.  Note the checked
substrings name a table `oauth10a`, while the schema's actual table name
is `OAuth10a_3Legged`. -/
def handle_integrity_error (errMsg : String) (now : Int) (s : OAuth10aRecord)
    (db : List OAuth10aRecord) : List OAuth10aRecord × Bool :=
  if containsSubstr errMsg "UNIQUE constraint failed: oauth10a.oauth_token_secret" then
    (update_existing_entry now s db, false)
  else if containsSubstr errMsg "UNIQUE constraint failed: oauth10a.twitter_id" then
    ((update_existing_record now s db).1, false)
  else (db, true)

/-! ### The 1.0a callback (`oauth10a.py` lines 138-257)

The route's inputs are the callback query string, the session, and the
two remote responses (access-token exchange and
`verify_credentials`); its outputs are the rendered outcome, the two
tables, and the list of remote calls it performed before finishing.
The PKCE material generated at lines 227-244 of the source after a
successful commit is covered by `gen_code_verifier` /
`derive_code_challenge` above and not repeated here. -/

structure Oauth10aRequest where
  oauth_token : Option String
  oauth_verifier : Option String
  denied : Option String
deriving DecidableEq, Repr

structure Oauth10aSession where
  oauth_token_secret : Option String
deriving DecidableEq, Repr

/-- Response of the access-token exchange.  The source compares
`resp['status']` against the string `'200'` and reads the token fields
from the form-encoded body (modelled for bodies carrying both fields;
on a body without them the source would crash constructing
`oauth.Token`, a path outside every claim). -/
structure AccessTokenResponse where
  status : String
  oauth_token : String
  oauth_token_secret : String
deriving DecidableEq, Repr

/-- Response of `verify_credentials`; the source compares `resp.status`
against the integer 200 and reads `screen_name` / `id_str` with default
`'Unknown'`. -/
structure VerifyCredentialsResponse where
  status : Nat
  screen_name : Option String
  id_str : Option String
deriving DecidableEq, Repr

inductive Oauth10aOutcome where
  | deniedError
  | missingParams
  | missingSessionSecret
  | accessTokenError
  | verifyError
  | dbError
  | success (screen_name : String) (user_id : String)
deriving DecidableEq, Repr

structure Oauth10aCallbackResult where
  outcome : Oauth10aOutcome
  oauthDb : List OAuth10aRecord
  userDb : List UserRecord
  httpCalls : List String
deriving DecidableEq, Repr

/-- Embedding of the credential reconciliation of the callback
(`oauth10a.py` lines 186-225): upsert of the `OAuth10a` row keyed by
`email` (the in-place update touches neither `date_created` nor
`last_token_refresh_date`), upsert of the `User` row keyed by `email`
(a freshly created user has no password), then one commit; an
`IntegrityError` rolls the whole transaction back and renders the
generic database error. -/
def refresh10aFields (user_id screen_name tok sec ver : String)
    (r : OAuth10aRecord) : OAuth10aRecord :=
  { r with
    twitter_id := user_id
    account_name := screen_name
    oauth_token := tok
    oauth_token_secret := sec
    oauth_verifier := ver }

def refreshUserFields (user_id screen_name : String) (u : UserRecord) : UserRecord :=
  { u with twitter_id := some user_id, account_name := screen_name }

def oauth10aReconcile (email user_id screen_name tok sec ver : String) (now : Int)
    (odb : List OAuth10aRecord) (udb : List UserRecord) :
    List OAuth10aRecord × List UserRecord × Bool :=
  let odb' := match odb.find? (fun r => r.email == email) with
    | some _ => updateFirst (fun r => r.email == email)
        (refresh10aFields user_id screen_name tok sec ver) odb
    | none => odb ++ [⟨email, user_id, screen_name, now, some now, ver, tok, sec, []⟩]
  let udb' := match udb.find? (fun u => u.email == email) with
    | none => udb ++ [⟨email, some user_id, screen_name, none⟩]
    | some _ => updateFirst (fun u => u.email == email)
        (refreshUserFields user_id screen_name) udb
  if oauth10aDbOk odb' udb' then (odb', udb', false) else (odb, udb, true)

/-- Embedding of `oauth10acallback` (`oauth10a.py` lines 140-225): the
denial check, the parameter checks, the session-secret check, the two
remote calls and the reconciliation, in source order. -/
def oauth10acallback (email : String) (req : Oauth10aRequest) (sess : Oauth10aSession)
    (atResp : AccessTokenResponse) (vcResp : VerifyCredentialsResponse) (now : Int)
    (odb : List OAuth10aRecord) (udb : List UserRecord) : Oauth10aCallbackResult :=
  if pyTruthy req.denied then ⟨.deniedError, odb, udb, []⟩
  else if !pyTruthy req.oauth_token || !pyTruthy req.oauth_verifier then
    ⟨.missingParams, odb, udb, []⟩
  else if !pyTruthy sess.oauth_token_secret then ⟨.missingSessionSecret, odb, udb, []⟩
  else if atResp.status ≠ "200" then ⟨.accessTokenError, odb, udb, ["access_token"]⟩
  else if vcResp.status ≠ 200 then ⟨.verifyError, odb, udb, ["access_token", "verify_credentials"]⟩
  else
    let screen_name := vcResp.screen_name.getD "Unknown"
    let user_id := vcResp.id_str.getD "Unknown"
    match oauth10aReconcile email user_id screen_name atResp.oauth_token
        atResp.oauth_token_secret (req.oauth_verifier.getD "") now odb udb with
    | (_, _, true) => ⟨.dbError, odb, udb, ["access_token", "verify_credentials"]⟩
    | (odb', udb', false) =>
        ⟨.success screen_name user_id, odb', udb', ["access_token", "verify_credentials"]⟩

/-! ### Token refresh (`oauth10a.py` lines 61-90) -/

/-- Embedding of `refresh_oauth_token`: the placeholder returns its
argument unchanged. -/
def refresh_oauth_token (r : OAuth10aRecord) : OAuth10aRecord := r

/-- Thirty days (`timedelta(days=30)`) in seconds. -/
def thirtyDays : Int := 2592000

/-- The refresh condition of the `needs_token_refresh` wrapper: an
`oauth_instance` keyword argument is present, its
`last_token_refresh_date` is set, and that date is before
`datetime.now(timezone.utc) - timedelta(days=30)`. -/
def needsRefreshCondition (now : Int) (inst : Option OAuth10aRecord) : Bool :=
  match inst with
  | some r =>
      match r.last_token_refresh_date with
      | some d => decide (d < now - thirtyDays)
      | none => false
  | none => false

/-- Embedding of the `wrapped` closure of `needs_token_refresh`: when the
condition holds the `oauth_instance` argument is replaced by
`refresh_oauth_token` of itself before the view runs. -/
def needs_token_refresh_wrapped (view : Option OAuth10aRecord → α) (now : Int)
    (inst : Option OAuth10aRecord) : α :=
  if needsRefreshCondition now inst then view (inst.map refresh_oauth_token)
  else view inst

/-! ### Secret hashing (`models.py` lines 87-111)

The `werkzeug.security` hash pair is an external library; it is modelled
from the spec as a deterministic injective tagged encoding, with
`check_password_hash h s` holding exactly when `h` was generated from
`s` — the functional contract of salted hash-then-verify, ignoring salt
variation and hash collisions. -/

/-- Modelled from the spec: `werkzeug.security.generate_password_hash`
(external library, not in the source tree). -/
def generate_password_hash (pw : String) : String := "wzhash$" ++ pw

/-- Modelled from the spec: `werkzeug.security.check_password_hash`
(external library, not in the source tree). -/
def check_password_hash (h pw : String) : Bool := h == generate_password_hash pw

/-- Reading the `oauth_token_secret_hash` property (`models.py` lines
87-94) always raises `AttributeError`. -/
def oauth_token_secret_hash_read (_ : OAuth10aRecord) : Except String String :=
  .error "AttributeError: oauth_token_secret is not a readable attribute"

/-- Assigning to the `oauth_token_secret_hash` property (`models.py`
lines 96-103) stores the password hash of the plaintext in
`oauth_token_secret`. -/
def oauth_token_secret_hash_write (r : OAuth10aRecord) (plain : String) : OAuth10aRecord :=
  { r with oauth_token_secret := generate_password_hash plain }

/-- Embedding of `OAuth10a.check_token_secret` (`models.py` lines
105-111). -/
def check_token_secret (r : OAuth10aRecord) (plain : String) : Bool :=
  check_password_hash r.oauth_token_secret plain

/-! ## OAuth 2.0 PKCE callback (`oauth20pkce.py` lines 100-246)

Table `OAuth20_PKCE` (`models.py` lines 146-168): unique constraints on
`email` (primary key) and `twitter_id` (nullable).  The route's inputs
are the query string, the session, and the two remote responses (token
exchange and user info). -/

/-- One row of the `OAuth20_PKCE` table. -/
structure OAuth20PKCERecord where
  email : String
  twitter_id : Option String
  account_name : Option String
  date_created : Int
  access_token : Option String
  refresh_token : Option String
  state : Option String
  code_verifier : String
  code_challenge : Option String
  code_challenge_method : Option String
  last_token_refresh_date : Option Int
  access_token_expires_in : Option Int
deriving DecidableEq, Repr

structure PkceRequest where
  error : Option String
  code : Option String
  state : Option String
deriving DecidableEq, Repr

structure PkceSession where
  state : Option String
  code_verifier : Option String
deriving DecidableEq, Repr

/-- Response of the token-exchange POST; the body's `access_token` is
modelled as present (on a 200 body without it the source would crash
with `KeyError`, a path outside every claim). -/
structure TokenResponse where
  status : Nat
  text : String
  access_token : String
  refresh_token : Option String
deriving DecidableEq, Repr

/-- Response of the `users/me` GET. -/
structure UserInfoResponse where
  status : Nat
  text : String
  username : String
  id : String
deriving DecidableEq, Repr

inductive PkceOutcome where
  | authorizationFailed
  | invalidState
  | invalidVerifier
  | tokenExchangeFailed (text : String)
  | userInfoFailed
  | successUpdated
  | successCreated
  | duplicateTwitterId
  | integrityErrorOther
  | uncaughtIntegrityError (msg : String)
deriving DecidableEq, Repr

/-- Uniqueness check for a nullable UNIQUE column (several NULLs are
allowed, each non-NULL value at most once). -/
def uniqueSomes (l : List (Option String)) : Bool := distinctStrings (l.filterMap id)

/-- New-record insert of the PKCE callback (`oauth20pkce.py` lines
219-228): `date_created` and `last_token_refresh_date` take their column
defaults, `code_challenge` and `code_challenge_method` are not set. -/
def pkceNewRecord (email : String) (reqState : Option String) (cv : String)
    (tokenResp : TokenResponse) (userResp : UserInfoResponse) (now : Int) : OAuth20PKCERecord :=
  ⟨email, some userResp.id, some userResp.username, now, some tokenResp.access_token,
   tokenResp.refresh_token, reqState, cv, none, none, some now, none⟩

/-- The in-place record update of the PKCE callback's existing-user path
(`oauth20pkce.py` lines 205-213): the refresh token is overwritten only
when the provider returned one. -/
def pkceRefreshFields (reqState : Option String) (cv : String)
    (tokenResp : TokenResponse) (userResp : UserInfoResponse) (now : Int)
    (r : OAuth20PKCERecord) : OAuth20PKCERecord :=
  { r with
    account_name := some userResp.username
    access_token := some tokenResp.access_token
    refresh_token := match tokenResp.refresh_token with
      | some rt => some rt
      | none => r.refresh_token
    state := reqState
    code_verifier := cv
    twitter_id := some userResp.id
    last_token_refresh_date := some now }

/-- Embedding of `oauth20pkcecallback`: error parameter, state
comparison (`state != session.get('state')`, where two absent values
compare equal), verifier truthiness, token exchange, user-info fetch,
then upsert keyed by `email`.  On the insert path an `IntegrityError` is
caught, rolled back and dispatched on its text; on the update path the
commit is not guarded, so a constraint violation there propagates
(`uncaughtIntegrityError`) and the transaction is not persisted. -/
def oauth20pkcecallback (email : String) (req : PkceRequest) (sess : PkceSession)
    (tokenResp : TokenResponse) (userResp : UserInfoResponse) (now : Int)
    (db : List OAuth20PKCERecord) : PkceOutcome × List OAuth20PKCERecord :=
  if pyTruthy req.error then (.authorizationFailed, db)
  else if req.state ≠ sess.state then (.invalidState, db)
  else match sess.code_verifier with
  | none => (.invalidVerifier, db)
  | some cv =>
      if cv = "" then (.invalidVerifier, db)
      else if tokenResp.status ≠ 200 then (.tokenExchangeFailed tokenResp.text, db)
      else if userResp.status ≠ 200 then (.userInfoFailed, db)
      else
        match db.find? (fun r => r.email == email) with
        | some _ =>
            let db' := updateFirst (fun r => r.email == email)
              (pkceRefreshFields req.state cv tokenResp userResp now) db
            if uniqueSomes (db'.map (·.twitter_id)) then (.successUpdated, db')
            else (.uncaughtIntegrityError "UNIQUE constraint failed: OAuth20_PKCE.twitter_id", db)
        | none =>
            let newRec := pkceNewRecord email req.state cv tokenResp userResp now
            if distinctStrings ((db ++ [newRec]).map (·.email)) &&
                uniqueSomes ((db ++ [newRec]).map (·.twitter_id)) then
              (.successCreated, db ++ [newRec])
            else
              let msg := if uniqueSomes ((db ++ [newRec]).map (·.twitter_id)) then
                  "UNIQUE constraint failed: OAuth20_PKCE.email"
                else "UNIQUE constraint failed: OAuth20_PKCE.twitter_id"
              if containsSubstr msg "UNIQUE constraint failed: OAuth20_PKCE.twitter_id" then
                (.duplicateTwitterId, db)
              else (.integrityErrorOther, db)

/-! ## General lemmas -/

/-- Mapping a projection `g` over `updateFirst p f l` is invisible when
`f` preserves `g` on elements satisfying `p`. -/
theorem updateFirst_map_eq {α β : Type} (p : α → Bool) (f : α → α) (g : α → β)
    (h : ∀ x, p x = true → g (f x) = g x) :
    ∀ l : List α, (updateFirst p f l).map g = l.map g := by
  intro l
  induction l with
  | nil => rfl
  | cons x xs ih =>
      cases hp : p x with
      | true => simp [updateFirst, hp, h x hp]
      | false => simp [updateFirst, hp, ih]

/-- Applying `updateFirst` twice is the same as once when `f` is
idempotent on matching elements and preserves the predicate. -/
theorem updateFirst_idem {α : Type} (p : α → Bool) (f : α → α)
    (hf : ∀ x, p x = true → f (f x) = f x) (hp : ∀ x, p (f x) = p x) :
    ∀ l : List α, updateFirst p f (updateFirst p f l) = updateFirst p f l := by
  intro l
  induction l with
  | nil => rfl
  | cons x xs ih =>
      cases hpx : p x with
      | true => simp [updateFirst, hpx, hp x, hf x hpx]
      | false => simp [updateFirst, hpx, ih]

/-- Elements not matching `p` survive `updateFirst` unchanged. -/
theorem mem_updateFirst_of_not_p {α : Type} (p : α → Bool) (f : α → α) (x : α)
    (hx : p x = false) : ∀ l : List α, x ∈ l → x ∈ updateFirst p f l := by
  intro l
  induction l with
  | nil => simp
  | cons y ys ih =>
      intro hmem
      cases hpy : p y with
      | true =>
          simp only [updateFirst, hpy, if_true]
          rcases List.mem_cons.mp hmem with h | h
          · subst h
            rw [hx] at hpy
            exact absurd hpy (by simp)
          · exact List.mem_cons_of_mem _ h
      | false =>
          simp only [updateFirst, hpy, Bool.false_eq_true, if_false]
          rcases List.mem_cons.mp hmem with h | h
          · exact h ▸ List.mem_cons_self _ _
          · exact List.mem_cons_of_mem _ (ih h)

/-- The image of the first matching element is in the updated list. -/
theorem image_mem_updateFirst {α : Type} (p : α → Bool) (f : α → α) :
    ∀ (l : List α) (u : α), l.find? p = some u → f u ∈ updateFirst p f l := by
  intro l
  induction l with
  | nil => simp
  | cons y ys ih =>
      intro u hu
      cases hpy : p y with
      | true =>
          rw [List.find?_cons_of_pos _ hpy] at hu
          have hyu : y = u := by injection hu
          subst hyu
          simp [updateFirst, hpy]
      | false =>
          rw [List.find?_cons_of_neg _ (by simp [hpy])] at hu
          simp only [updateFirst, hpy, Bool.false_eq_true, if_false]
          exact List.mem_cons_of_mem _ (ih u hu)

/-- When no element of the first part matches, `updateFirst` acts only on
the second part. -/
theorem updateFirst_append_of_none {α : Type} (p : α → Bool) (f : α → α) :
    ∀ (l₁ l₂ : List α), (∀ x ∈ l₁, p x = false) →
      updateFirst p f (l₁ ++ l₂) = l₁ ++ updateFirst p f l₂ := by
  intro l₁ l₂ h
  induction l₁ with
  | nil => simp
  | cons y ys ih =>
      have hy : p y = false := h y (List.mem_cons_self _ _)
      have ih2 := ih fun x hx => h x (List.mem_cons_of_mem _ hx)
      simp [updateFirst, hy, ih2]

/-- When no element of the first part matches, `find?` over the
concatenation searches the second part. -/
theorem find?_append_of_none {α : Type} (p : α → Bool) :
    ∀ (l₁ l₂ : List α), (∀ x ∈ l₁, p x = false) →
      (l₁ ++ l₂).find? p = l₂.find? p := by
  intro l₁ l₂ h
  induction l₁ with
  | nil => simp
  | cons y ys ih =>
      have hy : p y = false := h y (List.mem_cons_self _ _)
      rw [List.cons_append, List.find?_cons_of_neg _ (by simp [hy])]
      exact ih fun x hx => h x (List.mem_cons_of_mem _ hx)

/-! ## Claim theorems -/

/-- C9: the 1.0a token-refresh mechanism is an identity: for every
credential, `refresh_oauth_token` returns its argument unchanged; the
`needs_token_refresh` wrapper therefore always hands the view a
credential equal to the one passed in; and the wrapper's refresh
condition holds exactly when the credential's last refresh timestamp is
set and lies more than 30 days in the past. -/
theorem refresh_token_identity :
    (∀ r : OAuth10aRecord, refresh_oauth_token r = r) ∧
    (∀ {α : Type} (view : Option OAuth10aRecord → α) (now : Int)
        (inst : Option OAuth10aRecord),
        needs_token_refresh_wrapped view now inst = view inst) ∧
    (∀ (now : Int) (r : OAuth10aRecord),
        needsRefreshCondition now (some r) = true ↔
          ∃ d, r.last_token_refresh_date = some d ∧ now - d > thirtyDays) := by
  refine ⟨fun r => rfl, ?_, ?_⟩
  · intro α view now inst
    unfold needs_token_refresh_wrapped
    cases h : needsRefreshCondition now inst
    · simp
    · cases inst <;> simp [refresh_oauth_token]
  · intro now r
    unfold needsRefreshCondition
    cases h : r.last_token_refresh_date with
    | none => simp [h]
    | some d =>
        simp only [h, decide_eq_true_eq, Option.some_inj]
        constructor
        · intro hlt
          exact ⟨d, rfl, by omega⟩
        · rintro ⟨d2, rfl, hgt⟩
          omega

/-- C10: reading the `oauth_token_secret_hash` property always raises
`AttributeError`; assigning a plaintext stores the password hash (not
the plaintext) in `oauth_token_secret`; and `check_token_secret`
afterwards accepts exactly the assigned plaintext. -/
theorem secret_hash_interface :
    (∀ r : OAuth10aRecord, oauth_token_secret_hash_read r =
        Except.error "AttributeError: oauth_token_secret is not a readable attribute") ∧
    (∀ (r : OAuth10aRecord) (v : String),
        (oauth_token_secret_hash_write r v).oauth_token_secret = generate_password_hash v ∧
        (oauth_token_secret_hash_write r v).oauth_token_secret ≠ v) ∧
    (∀ (r : OAuth10aRecord) (v s : String),
        check_token_secret (oauth_token_secret_hash_write r v) s = true ↔ s = v) := by
  refine ⟨fun r => rfl, ?_, ?_⟩
  · intro r v
    refine ⟨rfl, ?_⟩
    intro hcontra
    have hlen := congrArg String.length hcontra
    simp only [oauth_token_secret_hash_write, generate_password_hash,
      String.length_append] at hlen
    rw [show ("wzhash$").length = 7 from rfl] at hlen
    omega
  · intro r v s
    simp only [check_token_secret, oauth_token_secret_hash_write, check_password_hash,
      generate_password_hash, beq_iff_eq]
    constructor
    · intro h
      have hdata := congrArg String.data h
      simp only [String.data_append] at hdata
      have hvs := List.append_cancel_left hdata
      exact (String.ext hvs).symm
    · intro h
      rw [h]

/-- C8: in the 1.0a callback, a signalled denial fails first; otherwise a
missing (or empty) `oauth_token` or `oauth_verifier` fails with the
missing-parameters error; otherwise a missing session-bound request-token
secret fails with the missing-secret error — and in each of these cases
no remote call is performed (in particular no access-token exchange) and
neither table is written. -/
theorem callback10a_failure_order (email : String) (req : Oauth10aRequest)
    (sess : Oauth10aSession) (atResp : AccessTokenResponse)
    (vcResp : VerifyCredentialsResponse) (now : Int)
    (odb : List OAuth10aRecord) (udb : List UserRecord) :
    (pyTruthy req.denied = true →
      oauth10acallback email req sess atResp vcResp now odb udb =
        ⟨.deniedError, odb, udb, []⟩) ∧
    (pyTruthy req.denied = false →
      (pyTruthy req.oauth_token = false ∨ pyTruthy req.oauth_verifier = false) →
      oauth10acallback email req sess atResp vcResp now odb udb =
        ⟨.missingParams, odb, udb, []⟩) ∧
    (pyTruthy req.denied = false → pyTruthy req.oauth_token = true →
      pyTruthy req.oauth_verifier = true → pyTruthy sess.oauth_token_secret = false →
      oauth10acallback email req sess atResp vcResp now odb udb =
        ⟨.missingSessionSecret, odb, udb, []⟩) := by
  refine ⟨?_, ?_, ?_⟩
  · intro hd
    simp [oauth10acallback, hd]
  · intro hd hparams
    rcases hparams with h | h <;> simp [oauth10acallback, hd, h]
  · intro hd ht hv hs
    simp [oauth10acallback, hd, ht, hv, hs]

/-- Witness for C8: a concrete callback with the parameters present but
the session secret gone fails with the missing-secret outcome, performing
no remote call and no write. -/
theorem callback10a_failure_order_witness :
    pyTruthy (none : Option String) = false ∧
    pyTruthy (some "tok") = true ∧
    pyTruthy (some "ver") = true ∧
    oauth10acallback "u@example.com" ⟨some "tok", some "ver", none⟩ ⟨none⟩
        ⟨"200", "T", "S"⟩ ⟨200, some "alice", some "42"⟩ 0 [] [] =
      ⟨.missingSessionSecret, [], [], []⟩ :=
  ⟨rfl, by decide, by decide,
    (callback10a_failure_order "u@example.com" ⟨some "tok", some "ver", none⟩ ⟨none⟩
        ⟨"200", "T", "S"⟩ ⟨200, some "alice", some "42"⟩ 0 [] []).2.2
      (by decide) (by decide) (by decide) (by decide)⟩

/-- C5 (amended): whenever the returned `state` and the session-stored
`state` are unequal as values — an absent value comparing as Python's
`None`, so absence of exactly one of the two also differs — and no
provider error is signalled, the PKCE callback fails with the
invalid-state outcome and the database is unchanged.  (When both are
absent the comparison `None != None` is false and the flow proceeds; see
the counterexample.) -/
theorem pkce_state_mismatch_rejects (email : String) (req : PkceRequest)
    (sess : PkceSession) (tokenResp : TokenResponse) (userResp : UserInfoResponse)
    (now : Int) (db : List OAuth20PKCERecord)
    (herr : pyTruthy req.error = false) (hne : req.state ≠ sess.state) :
    oauth20pkcecallback email req sess tokenResp userResp now db = (.invalidState, db) := by
  simp [oauth20pkcecallback, herr, hne]

/-- Witness for C5: a concrete callback whose returned state differs from
the stored one is rejected with no database write. -/
theorem pkce_state_mismatch_rejects_witness :
    pyTruthy (none : Option String) = false ∧
    (some "returned" : Option String) ≠ some "stored" ∧
    oauth20pkcecallback "u@example.com" ⟨none, some "c", some "returned"⟩
        ⟨some "stored", some "v"⟩ ⟨200, "", "tok", some "rt"⟩
        ⟨200, "", "alice", "42"⟩ 0 [] = (.invalidState, []) :=
  ⟨rfl, by decide,
    pkce_state_mismatch_rejects "u@example.com" ⟨none, some "c", some "returned"⟩
      ⟨some "stored", some "v"⟩ ⟨200, "", "tok", some "rt"⟩ ⟨200, "", "alice", "42"⟩ 0 []
      (by decide) (by decide)⟩

/-- Counterexample for C5 as stated: when the session-stored state is
absent and the callback carries no `state` parameter either, the check
`state != session.get('state')` compares `None` with `None` and passes,
so the flow proceeds to the token exchange and writes a credential
instead of failing with a state mismatch. -/
theorem pkce_state_absent_accepted_counterexample :
    oauth20pkcecallback "u@example.com" ⟨none, some "c", none⟩ ⟨none, some "v"⟩
        ⟨200, "", "tok", some "rt"⟩ ⟨200, "", "alice", "42"⟩ 7 [] =
      (.successCreated,
        [⟨"u@example.com", some "42", some "alice", 7, some "tok", some "rt",
          none, "v", none, none, some 7, none⟩]) ∧
    (PkceOutcome.successCreated ≠ .invalidState) ∧
    ([⟨"u@example.com", some "42", some "alice", 7, some "tok", some "rt",
       none, "v", none, none, some 7, none⟩] : List OAuth20PKCERecord) ≠ [] := by
  refine ⟨by decide, by decide, by decide⟩

/-- Finding again after `updateFirst` yields the image of the first
match, when the update preserves the predicate. -/
theorem find?_updateFirst {α : Type} (p : α → Bool) (g : α → α)
    (hp : ∀ x, p (g x) = p x) :
    ∀ (l : List α) (u : α), l.find? p = some u →
      (updateFirst p g l).find? p = some (g u) := by
  intro l
  induction l with
  | nil => simp
  | cons y ys ih =>
      intro u hu
      cases hpy : p y with
      | true =>
          rw [List.find?_cons_of_pos _ hpy] at hu
          have hyu : y = u := by injection hu
          subst hyu
          simp only [updateFirst, hpy, if_true]
          rw [List.find?_cons_of_pos _ (by rw [hp]; exact hpy)]
      | false =>
          rw [List.find?_cons_of_neg _ (by simp [hpy])] at hu
          simp only [updateFirst, hpy, Bool.false_eq_true, if_false]
          rw [List.find?_cons_of_neg _ (by simp [hpy])]
          exact ih u hu

/-- C3: the archive law fails in the code.  `update_existing_record`
selects the record by equality with the incoming `twitter_id` and then
guards the archive on inequality with that same value, so the archive
branch can never run: no invocation ever changes any record's
`previous_twitter_account_info`.  Concretely, with Alice's credential
under provider id "A" and another record owning provider id "B",
reconciling Alice's data carrying provider id "B" archives nothing: the
function overwrites the other record (including its `email`) and its
internal commit then fails on the email uniqueness constraint, leaving
the database entirely unchanged — no history entry, and the active
record does not come to reflect "B". -/
theorem update_existing_record_never_archives :
    (∀ (now : Int) (s : OAuth10aRecord) (db : List OAuth10aRecord),
        ((update_existing_record now s db).1).map (·.previous_twitter_account_info) =
          db.map (·.previous_twitter_account_info)) ∧
    update_existing_record 200
        ⟨"alice@example.com", "B", "alice-new", 50, none, "v2", "tokN", "secN", []⟩
        [⟨"alice@example.com", "A", "alice", 0, some 0, "v0", "tokA", "secA", []⟩,
         ⟨"bob@example.com", "B", "bob", 0, some 0, "v1", "tokB", "secB", []⟩] =
      ([⟨"alice@example.com", "A", "alice", 0, some 0, "v0", "tokA", "secA", []⟩,
        ⟨"bob@example.com", "B", "bob", 0, some 0, "v1", "tokB", "secB", []⟩],
       some "UNIQUE constraint failed: OAuth10a_3Legged.email") := by
  constructor
  · intro now s db
    have hmap := updateFirst_map_eq (fun r => r.twitter_id == s.twitter_id)
      (overwrite10a now s) (fun r => r.previous_twitter_account_info)
      (fun x hx => by
        have hxe : x.twitter_id = s.twitter_id := by simpa using hx
        simp [overwrite10a, hxe]) db
    unfold update_existing_record
    cases hf : db.find? (fun r => r.twitter_id == s.twitter_id) with
    | none => rfl
    | some u =>
        simp only
        split
        · exact hmap
        · rfl
  · decide

/-- C4 (amended): starting from a store with no 1.0a credential for the
owning user, running the live reconciliation (the callback's email-keyed
upsert) twice with identical `(token, token_secret)` leaves exactly one
credential record — the second run is an in-place refresh producing
neither a second insert nor any archived history — but the refresh
timestamp is not updated: the record keeps the `last_token_refresh_date`
of its creation.  The `update_existing_entry` helper that would set the
timestamp is unreachable: its dispatcher `handle_integrity_error` matches
error strings naming a table `oauth10a`, which the schema's actual table
`OAuth10a_3Legged` never produces, so it renders the generic error and
changes nothing. -/
theorem reconcile10a_idempotent_refresh
    (e tid sn tok sec ver : String) (t1 t2 : Int)
    (odb : List OAuth10aRecord) (udb : List UserRecord)
    (odb1 : List OAuth10aRecord) (udb1 : List UserRecord)
    (hfresh : ∀ r ∈ odb, (r.email == e) = false)
    (h1 : oauth10aReconcile e tid sn tok sec ver t1 odb udb = (odb1, udb1, false)) :
    oauth10aReconcile e tid sn tok sec ver t2 odb1 udb1 = (odb1, udb1, false) ∧
    odb1 = odb ++ [⟨e, tid, sn, t1, some t1, ver, tok, sec, []⟩] ∧
    (odb1.filter (fun r => r.email == e)).length = 1 ∧
    (∀ r ∈ odb1, r.email = e →
        r.last_token_refresh_date = some t1 ∧ r.previous_twitter_account_info = []) ∧
    (∀ (now : Int) (s : OAuth10aRecord) (db : List OAuth10aRecord),
        handle_integrity_error "UNIQUE constraint failed: OAuth10a_3Legged.twitter_id"
          now s db = (db, true)) := by
  have hfindo : odb.find? (fun r => r.email == e) = none :=
    List.find?_eq_none.mpr fun x hx => by simp [hfresh x hx]
  have hdispatch : ∀ (now : Int) (s : OAuth10aRecord) (db : List OAuth10aRecord),
      handle_integrity_error "UNIQUE constraint failed: OAuth10a_3Legged.twitter_id"
        now s db = (db, true) := by
    intro now s db
    unfold handle_integrity_error
    rw [show containsSubstr "UNIQUE constraint failed: OAuth10a_3Legged.twitter_id"
          "UNIQUE constraint failed: oauth10a.oauth_token_secret" = false from by decide,
        show containsSubstr "UNIQUE constraint failed: OAuth10a_3Legged.twitter_id"
          "UNIQUE constraint failed: oauth10a.twitter_id" = false from by decide]
    simp
  simp only [oauth10aReconcile, hfindo] at h1
  cases hfu : udb.find? (fun u => u.email == e) with
  | none =>
      rw [hfu] at h1
      exfalso
      have hbad : oauth10aDbOk (odb ++ [⟨e, tid, sn, t1, some t1, ver, tok, sec, []⟩])
          (udb ++ [⟨e, some tid, sn, none⟩]) = false := by
        unfold oauth10aDbOk
        simp [List.all_append]
      rw [hbad] at h1
      simp at h1
  | some u0 =>
      rw [hfu] at h1
      cases hok : oauth10aDbOk (odb ++ [⟨e, tid, sn, t1, some t1, ver, tok, sec, []⟩])
          (updateFirst (fun u => u.email == e) (refreshUserFields tid sn) udb) with
      | false =>
          rw [hok] at h1
          simp at h1
      | true =>
          rw [hok] at h1
          have ho1 : odb1 = odb ++ [⟨e, tid, sn, t1, some t1, ver, tok, sec, []⟩] := by
            have hc := congrArg (fun x => x.1) h1
            simpa using hc.symm
          have hu1 : udb1 =
              updateFirst (fun u => u.email == e) (refreshUserFields tid sn) udb := by
            have hc := congrArg (fun x => x.2.1) h1
            simpa using hc.symm
          subst ho1
          subst hu1
          refine ⟨?_, rfl, ?_, ?_, hdispatch⟩
          · have hfind2 : List.find? (fun r => r.email == e)
                (odb ++ [(⟨e, tid, sn, t1, some t1, ver, tok, sec, []⟩ : OAuth10aRecord)]) =
                some ⟨e, tid, sn, t1, some t1, ver, tok, sec, []⟩ := by
              rw [find?_append_of_none _ _ _ hfresh]
              simp [List.find?]
            have hupd2 : updateFirst (fun r => r.email == e)
                (refresh10aFields tid sn tok sec ver)
                (odb ++ [(⟨e, tid, sn, t1, some t1, ver, tok, sec, []⟩ : OAuth10aRecord)]) =
                odb ++ [(⟨e, tid, sn, t1, some t1, ver, tok, sec, []⟩ : OAuth10aRecord)] := by
              rw [updateFirst_append_of_none _ _ _ _ hfresh]
              simp [updateFirst, refresh10aFields]
            have hfindu2 : List.find? (fun u => u.email == e)
                (updateFirst (fun u => u.email == e) (refreshUserFields tid sn) udb) =
                some (refreshUserFields tid sn u0) :=
              find?_updateFirst (fun u => u.email == e) (refreshUserFields tid sn)
                (fun x => rfl) udb u0 hfu
            have hidem : updateFirst (fun u => u.email == e) (refreshUserFields tid sn)
                (updateFirst (fun u => u.email == e) (refreshUserFields tid sn) udb) =
                updateFirst (fun u => u.email == e) (refreshUserFields tid sn) udb :=
              updateFirst_idem (fun u => u.email == e) (refreshUserFields tid sn)
                (fun x _ => rfl) (fun x => rfl) udb
            simp only [oauth10aReconcile, hfind2, hupd2, hfindu2, hidem, hok]
            simp
          · rw [List.filter_append]
            have : odb.filter (fun r => r.email == e) = [] :=
              List.filter_eq_nil_iff.mpr fun x hx => by simp [hfresh x hx]
            simp [this]
          · intro r hr hre
            rcases List.mem_append.mp hr with hmem | hmem
            · have := hfresh r hmem
              rw [hre] at this
              simp at this
            · have : r = ⟨e, tid, sn, t1, some t1, ver, tok, sec, []⟩ := by
                simpa using hmem
              rw [this]
              exact ⟨rfl, rfl⟩

/-- Witness for C4: a concrete second reconciliation with identical
token material is a no-op refresh that neither inserts nor archives. -/
theorem reconcile10a_idempotent_refresh_witness :
    oauth10aReconcile "u@x.com" "42" "alice" "T" "S" "V" 200
        [⟨"u@x.com", "42", "alice", 100, some 100, "V", "T", "S", []⟩]
        [⟨"u@x.com", some "42", "alice", some "pw"⟩] =
      ([⟨"u@x.com", "42", "alice", 100, some 100, "V", "T", "S", []⟩],
       [⟨"u@x.com", some "42", "alice", some "pw"⟩], false) :=
  (reconcile10a_idempotent_refresh "u@x.com" "42" "alice" "T" "S" "V" 100 200
    [] [⟨"u@x.com", none, "alice0", some "pw"⟩]
    [⟨"u@x.com", "42", "alice", 100, some 100, "V", "T", "S", []⟩]
    [⟨"u@x.com", some "42", "alice", some "pw"⟩]
    (by simp) (by decide)).1

/-- Counterexample for C4 as stated: reconciling twice with identical
`(token, token_secret)` at times 100 and then 200 leaves the single
record's `last_token_refresh_date` at `some 100`: the in-place refresh of
the live reconciliation does not update the refresh timestamp (the
`update_existing_entry` code path that would set it never runs). -/
theorem reconcile10a_no_timestamp_update_counterexample :
    oauth10aReconcile "u@x.com" "42" "alice" "T" "S" "V" 100 []
        [⟨"u@x.com", none, "alice0", some "pw"⟩] =
      ([⟨"u@x.com", "42", "alice", 100, some 100, "V", "T", "S", []⟩],
       [⟨"u@x.com", some "42", "alice", some "pw"⟩], false) ∧
    oauth10aReconcile "u@x.com" "42" "alice" "T" "S" "V" 200
        [⟨"u@x.com", "42", "alice", 100, some 100, "V", "T", "S", []⟩]
        [⟨"u@x.com", some "42", "alice", some "pw"⟩] =
      ([⟨"u@x.com", "42", "alice", 100, some 100, "V", "T", "S", []⟩],
       [⟨"u@x.com", some "42", "alice", some "pw"⟩], false) ∧
    (some (100 : Int)) ≠ some 200 := by
  refine ⟨by decide, by decide, by decide⟩

/-- Membership gives a positive `contains`. -/
theorem contains_of_mem (v : String) :
    ∀ l : List String, v ∈ l → l.contains v = true := by
  intro l
  induction l with
  | nil => simp
  | cons a t ih =>
      intro h
      rcases List.mem_cons.mp h with rfl | h2
      · simp [List.contains_cons]
      · simp only [List.contains_cons, ih h2, Bool.or_true]

/-- A duplicated string refutes `distinctStrings`. -/
theorem distinctStrings_cons_false_of_mem (v : String) (l : List String)
    (h : v ∈ l) : distinctStrings (v :: l) = false := by
  simp only [distinctStrings]
  rw [contains_of_mem v l h]
  rfl

/-- A false tail refutes `distinctStrings`. -/
theorem distinctStrings_cons_false_of_tail (v : String) (l : List String)
    (h : distinctStrings l = false) : distinctStrings (v :: l) = false := by
  simp [distinctStrings, h]

/-- Two distinct list elements mapped to the same non-null key refute the
nullable-unique-column check. -/
theorem uniqueSomes_false_of_pair {α : Type} (f : α → Option String) (v : String) :
    ∀ (l : List α) (x y : α), x ∈ l → y ∈ l → x ≠ y → f x = some v → f y = some v →
      uniqueSomes (l.map f) = false := by
  intro l
  induction l with
  | nil => intro x y hx; simp at hx
  | cons a t ih =>
      intro x y hx hy hxy hfx hfy
      have hvmem : ∀ z ∈ t, f z = some v → v ∈ (t.map f).filterMap id := by
        intro z hz hfz
        exact List.mem_filterMap.mpr ⟨some v, List.mem_map.mpr ⟨z, hz, hfz⟩, rfl⟩
      rcases List.mem_cons.mp hx with rfl | hx'
      · have hy' : y ∈ t := by
          rcases List.mem_cons.mp hy with rfl | h2
          · exact absurd rfl hxy
          · exact h2
        unfold uniqueSomes
        rw [List.map_cons, List.filterMap_cons, hfx]
        exact distinctStrings_cons_false_of_mem v _ (hvmem y hy' hfy)
      · rcases List.mem_cons.mp hy with rfl | hy'
        · unfold uniqueSomes
          rw [List.map_cons, List.filterMap_cons, hfy]
          exact distinctStrings_cons_false_of_mem v _ (hvmem x hx' hfx)
        · have htail := ih x y hx' hy' hxy hfx hfy
          unfold uniqueSomes at htail ⊢
          rw [List.map_cons, List.filterMap_cons]
          cases hfa : f a with
          | none => exact htail
          | some w => exact distinctStrings_cons_false_of_tail w _ htail

/-- C7: whenever a PKCE callback reaches reconciliation and the incoming
provider user id already belongs to a record of a different owning user,
the operation fails with an integrity error — caught and reported on the
insert path, propagated on the update path — and the database is left
unchanged, with no archive-and-retry fallback. -/
theorem pkce_integrity_conflict_rejected
    (email : String) (req : PkceRequest) (sess : PkceSession)
    (tokenResp : TokenResponse) (userResp : UserInfoResponse) (now : Int)
    (db : List OAuth20PKCERecord) (cv : String) (r0 : OAuth20PKCERecord)
    (herr : pyTruthy req.error = false)
    (hstate : req.state = sess.state)
    (hcv : sess.code_verifier = some cv) (hcv2 : cv ≠ "")
    (ht : tokenResp.status = 200) (hu : userResp.status = 200)
    (hr0 : r0 ∈ db) (hrid : r0.twitter_id = some userResp.id)
    (hrem : r0.email ≠ email) :
    (oauth20pkcecallback email req sess tokenResp userResp now db).2 = db ∧
    ((oauth20pkcecallback email req sess tokenResp userResp now db).1 = .duplicateTwitterId ∨
      (oauth20pkcecallback email req sess tokenResp userResp now db).1 =
        .uncaughtIntegrityError "UNIQUE constraint failed: OAuth20_PKCE.twitter_id") := by
  have hpr0 : (r0.email == email) = false := by simp [hrem]
  simp only [oauth20pkcecallback]
  rw [if_neg (by simp [herr]), if_neg (by simp [hstate]), hcv]
  simp only
  rw [if_neg hcv2, if_neg (by simp [ht]), if_neg (by simp [hu])]
  cases hf : db.find? (fun r => r.email == email) with
  | some u =>
      have hpu := List.find?_some hf
      have hx := image_mem_updateFirst (fun r => r.email == email)
        (pkceRefreshFields req.state cv tokenResp userResp now) db u hf
      have hy := mem_updateFirst_of_not_p (fun r => r.email == email)
        (pkceRefreshFields req.state cv tokenResp userResp now) r0 hpr0 db hr0
      have hne : pkceRefreshFields req.state cv tokenResp userResp now u ≠ r0 := by
        intro hcontra
        apply hrem
        rw [← hcontra]
        show u.email = email
        simpa using hpu
      have hdup : uniqueSomes ((updateFirst (fun r => r.email == email)
          (pkceRefreshFields req.state cv tokenResp userResp now) db).map
            (fun x => x.twitter_id)) = false :=
        uniqueSomes_false_of_pair (fun x => x.twitter_id) userResp.id _ _ _ hx hy hne rfl hrid
      rw [if_neg (by simp [hdup])]
      exact ⟨rfl, Or.inr rfl⟩
  | none =>
      have hxmem : pkceNewRecord email req.state cv tokenResp userResp now ∈
          db ++ [pkceNewRecord email req.state cv tokenResp userResp now] := by
        simp
      have hymem : r0 ∈ db ++ [pkceNewRecord email req.state cv tokenResp userResp now] :=
        List.mem_append_left _ hr0
      have hne : pkceNewRecord email req.state cv tokenResp userResp now ≠ r0 := by
        intro hcontra
        apply hrem
        rw [← hcontra]
        rfl
      have hdup : uniqueSomes ((db ++
          [pkceNewRecord email req.state cv tokenResp userResp now]).map
            (fun x => x.twitter_id)) = false :=
        uniqueSomes_false_of_pair (fun x => x.twitter_id) userResp.id _ _ _
          hxmem hymem hne rfl hrid
      simp only [List.map_append, List.map_cons, List.map_nil] at hdup
      have hsub : containsSubstr "UNIQUE constraint failed: OAuth20_PKCE.twitter_id"
          "UNIQUE constraint failed: OAuth20_PKCE.twitter_id" = true := by decide
      simp [hdup, hsub]

/-- Witness for C7: a concrete PKCE callback whose fetched provider user
id "42" already belongs to another owner's record is rejected with the
duplicate-id outcome and the store is unchanged. -/
theorem pkce_integrity_conflict_rejected_witness :
    (oauth20pkcecallback "u@x.com" ⟨none, some "c", some "st"⟩ ⟨some "st", some "v"⟩
        ⟨200, "", "tok", none⟩ ⟨200, "", "alice", "42"⟩ 5
        [⟨"other@x.com", some "42", some "bob", 0, some "t0", none, none, "v0",
          none, none, some 0, none⟩]).2 =
      [⟨"other@x.com", some "42", some "bob", 0, some "t0", none, none, "v0",
        none, none, some 0, none⟩] ∧
    ((oauth20pkcecallback "u@x.com" ⟨none, some "c", some "st"⟩ ⟨some "st", some "v"⟩
        ⟨200, "", "tok", none⟩ ⟨200, "", "alice", "42"⟩ 5
        [⟨"other@x.com", some "42", some "bob", 0, some "t0", none, none, "v0",
          none, none, some 0, none⟩]).1 = .duplicateTwitterId ∨
      (oauth20pkcecallback "u@x.com" ⟨none, some "c", some "st"⟩ ⟨some "st", some "v"⟩
        ⟨200, "", "tok", none⟩ ⟨200, "", "alice", "42"⟩ 5
        [⟨"other@x.com", some "42", some "bob", 0, some "t0", none, none, "v0",
          none, none, some 0, none⟩]).1 =
        .uncaughtIntegrityError "UNIQUE constraint failed: OAuth20_PKCE.twitter_id") :=
  pkce_integrity_conflict_rejected "u@x.com" ⟨none, some "c", some "st"⟩
    ⟨some "st", some "v"⟩ ⟨200, "", "tok", none⟩ ⟨200, "", "alice", "42"⟩ 5
    [⟨"other@x.com", some "42", some "bob", 0, some "t0", none, none, "v0",
      none, none, some 0, none⟩] "v"
    ⟨"other@x.com", some "42", some "bob", 0, some "t0", none, none, "v0",
      none, none, some 0, none⟩
    (by decide) rfl rfl (by decide) rfl rfl (by simp) rfl (by decide)

/-- In-range `getD` produces a list element. -/
theorem getD_mem_of_lt {α : Type} (d : α) :
    ∀ (l : List α) (n : Nat), n < l.length → l.getD n d ∈ l := by
  intro l
  induction l with
  | nil => intro n h; simp at h
  | cons a t ih =>
      intro n h
      cases n with
      | zero => simp [List.getD]
      | succ m =>
          have hm : m < t.length := by simpa using h
          simp only [List.getD_cons_succ]
          exact List.mem_cons_of_mem _ (ih m hm)

/-- Every base64url output character lies in the alphabet. -/
theorem b64char_mem (n : Nat) : b64char n ∈ b64urlAlphabet := by
  by_cases h : n < b64urlAlphabet.length
  · exact getD_mem_of_lt 'A' b64urlAlphabet n h
  · unfold b64char
    rw [List.getD_eq_default _ _ (Nat.le_of_not_lt h)]
    decide

/-- No base64url output character is the padding character. -/
theorem b64char_ne_pad (n : Nat) : b64char n ≠ '=' := by
  have h := b64char_mem n
  intro hcontra
  rw [hcontra] at h
  revert h
  decide

/-- Stripping trailing padding distributes over a prefix when the tail
keeps at least one character. -/
theorem rstripEq_append (xs ys : List Char) (h : rstripEq ys ≠ []) :
    rstripEq (xs ++ ys) = xs ++ rstripEq ys := by
  have hne : (ys.reverse.dropWhile (· == '=')).isEmpty = false := by
    cases hdw : ys.reverse.dropWhile (· == '=') with
    | nil =>
        exfalso
        apply h
        unfold rstripEq
        rw [hdw]
        rfl
    | cons a t => rfl
  unfold rstripEq
  rw [List.reverse_append, List.dropWhile_append, hne]
  simp

/-- Stripping one trailing `'='` from a four-character group whose third
character is not padding. -/
theorem rstripEq_three_pad (c1 c2 c3 : Char) (h1 : (c3 == '=') = false) :
    rstripEq [c1, c2, c3, '='] = [c1, c2, c3] := by
  show (List.dropWhile (· == '=') ['=', c3, c2, c1]).reverse = [c1, c2, c3]
  rw [List.dropWhile_cons, if_pos (show (('=' : Char) == '=') = true by rfl),
      List.dropWhile_cons, if_neg (by simp [h1])]
  rfl

/-- For inputs of length `3k+2` (such as a SHA-256 digest), the encoded
and `'='`-stripped base64url text has length `4k+3` and contains no
padding character. -/
theorem rstrip_encode_spec :
    ∀ (l : List Nat), l.length % 3 = 2 →
      (rstripEq (base64urlEncode l)).length = l.length / 3 * 4 + 3 ∧
      ∀ c ∈ rstripEq (base64urlEncode l), c ≠ '='
  | [], h => by simp at h
  | [b0], h => by simp at h
  | [b0, b1], h => by
      have henc : rstripEq (base64urlEncode [b0, b1]) =
          [b64char ((b0 * 65536 + b1 * 256) / 262144),
           b64char ((b0 * 65536 + b1 * 256) / 4096 % 64),
           b64char ((b0 * 65536 + b1 * 256) / 64 % 64)] := by
        show rstripEq [b64char ((b0 * 65536 + b1 * 256) / 262144),
          b64char ((b0 * 65536 + b1 * 256) / 4096 % 64),
          b64char ((b0 * 65536 + b1 * 256) / 64 % 64), '='] = _
        exact rstripEq_three_pad _ _ _ (by simp [b64char_ne_pad])
      rw [henc]
      refine ⟨by simp, ?_⟩
      intro c hc
      simp only [List.mem_cons, List.not_mem_nil, or_false] at hc
      rcases hc with rfl | rfl | rfl <;> exact b64char_ne_pad _
  | b0 :: b1 :: b2 :: rest, h => by
      have hrest : rest.length % 3 = 2 := by
        have hlen : (b0 :: b1 :: b2 :: rest).length = rest.length + 3 := by simp
        rw [hlen] at h
        omega
      obtain ⟨ihlen, ihpad⟩ := rstrip_encode_spec rest hrest
      have hne : rstripEq (base64urlEncode rest) ≠ [] := by
        intro hcon
        rw [hcon] at ihlen
        simp only [List.length_nil] at ihlen
        omega
      rw [show base64urlEncode (b0 :: b1 :: b2 :: rest) =
            [b64char ((b0 * 65536 + b1 * 256 + b2) / 262144),
             b64char ((b0 * 65536 + b1 * 256 + b2) / 4096 % 64),
             b64char ((b0 * 65536 + b1 * 256 + b2) / 64 % 64),
             b64char ((b0 * 65536 + b1 * 256 + b2) % 64)] ++ base64urlEncode rest from rfl,
          rstripEq_append _ _ hne]
      constructor
      · rw [List.length_append, ihlen]
        simp only [List.length_cons, List.length_nil]
        omega
      · intro c hc
        rcases List.mem_append.mp hc with hc | hc
        · simp only [List.mem_cons, List.not_mem_nil, or_false] at hc
          rcases hc with rfl | rfl | rfl | rfl <;> exact b64char_ne_pad _
        · exact ihpad c hc

/-- The SHA-256 digest always has 32 bytes. -/
theorem sha256_length (msg : List Nat) : (sha256 msg).length = 32 := by
  unfold sha256
  simp [wordBytes]

/-- C6: every run of the PKCE begin operation produces a verifier of
exactly 128 characters drawn from the unreserved URL-safe alphabet, and
the derived code challenge is base64url(SHA-256(verifier)) with the `'='`
padding stripped — concretely a 43-character string with no padding
character left. -/
theorem pkce_verifier_challenge_spec (choice : Nat → Fin 66) :
    (gen_code_verifier choice).length = 128 ∧
    (∀ ch ∈ (gen_code_verifier choice).data, ch ∈ unreservedAlphabet) ∧
    derive_code_challenge (gen_code_verifier choice) =
      String.mk (rstripEq (base64urlEncode
        (sha256 ((gen_code_verifier choice).data.map Char.toNat)))) ∧
    (derive_code_challenge (gen_code_verifier choice)).length = 43 ∧
    (∀ ch ∈ (derive_code_challenge (gen_code_verifier choice)).data, ch ≠ '=') := by
  have halpha : unreservedAlphabet.length = 66 := by decide
  have hmod : (sha256 ((gen_code_verifier choice).data.map Char.toNat)).length % 3 = 2 := by
    rw [sha256_length]
  obtain ⟨hlen, hpad⟩ :=
    rstrip_encode_spec (sha256 ((gen_code_verifier choice).data.map Char.toNat)) hmod
  refine ⟨?_, ?_, rfl, ?_, ?_⟩
  · show (gen_code_verifier choice).data.length = 128
    simp [gen_code_verifier]
  · intro ch hch
    simp only [gen_code_verifier, List.mem_map, List.mem_range] at hch
    obtain ⟨i, -, rfl⟩ := hch
    exact getD_mem_of_lt ' ' unreservedAlphabet (choice i) (by rw [halpha]; exact (choice i).isLt)
  · show (derive_code_challenge (gen_code_verifier choice)).data.length = 43
    show (rstripEq (base64urlEncode
        (sha256 ((gen_code_verifier choice).data.map Char.toNat)))).length = 43
    rw [hlen, sha256_length]
  · intro ch hch
    exact hpad ch hch

/-- A target whose report call returns a response with a parseable body
contributes exactly its triple of entries and does not abort. -/
theorem processTarget_ok (p : ActionKind → CallResult) (imp : String) (s : Nat) (t : String)
    (hr : p .report = .resp s t true) :
    processTargetReport p imp = (targetEntries p imp, none) := by
  unfold processTargetReport
  rw [hr]
  simp [targetEntries, reportEntry, hr]

/-- When every report call returns a response with a parseable body, the
generator run never aborts and its outcome log is exactly the
concatenation of the per-target triples. -/
theorem runReport_complete (post : Nat → ActionKind → CallResult) :
    ∀ (targets : List String) (i0 : Nat),
      (∀ k, k < targets.length → ∃ s t, post (i0 + k) .report = .resp s t true) →
      runReportImpersonators post i0 targets = (pipelineLog post i0 targets, none) := by
  intro targets
  induction targets with
  | nil => intro i0 h; rfl
  | cons imp rest ih =>
      intro i0 h
      obtain ⟨s, t, hr⟩ := h 0 (Nat.succ_pos _)
      rw [Nat.add_zero] at hr
      have hshift : ∀ k, k < rest.length →
          ∃ s t, post (i0 + 1 + k) .report = .resp s t true := by
        intro k hk
        have hh := h (k + 1) (Nat.succ_lt_succ hk)
        rwa [show i0 + (k + 1) = i0 + 1 + k by omega] at hh
      simp only [runReportImpersonators, processTarget_ok (post i0) imp s t hr,
        ih (i0 + 1) hshift, pipelineLog]

/-- When the `k`-th target's report call raises and all earlier report
calls return parseable responses, the run aborts at target `k`: the log
holds the earlier targets' triples plus the `k`-th mute and block
entries, and the exception escapes; later targets are skipped. -/
theorem runReport_aborts (post : Nat → ActionKind → CallResult) :
    ∀ (targets : List String) (i0 k : Nat) (m : String),
      k < targets.length →
      (∀ j, j < k → ∃ s t, post (i0 + j) .report = .resp s t true) →
      post (i0 + k) .report = .exn m →
      runReportImpersonators post i0 targets =
        (pipelineLog post i0 (targets.take k) ++
          [guardedActionEntry .mute (targets.getD k "") (post (i0 + k) .mute),
           guardedActionEntry .block (targets.getD k "") (post (i0 + k) .block)], some m) := by
  intro targets
  induction targets with
  | nil => intro i0 k m hk; simp at hk
  | cons imp rest ih =>
      intro i0 k m hk hprev hexn
      cases k with
      | zero =>
          rw [Nat.add_zero] at hexn
          have hpt : processTargetReport (post i0) imp =
              ([guardedActionEntry .mute imp (post i0 .mute),
                guardedActionEntry .block imp (post i0 .block)], some m) := by
            unfold processTargetReport
            rw [hexn]
          simp only [runReportImpersonators, hpt, List.take_zero, pipelineLog,
            List.getD_cons_zero, List.nil_append, Nat.add_zero]
      | succ k2 =>
          obtain ⟨s, t, hr⟩ := hprev 0 (Nat.succ_pos _)
          rw [Nat.add_zero] at hr
          have hk2 : k2 < rest.length := by simpa using hk
          have hprev2 : ∀ j, j < k2 →
              ∃ s t, post (i0 + 1 + j) .report = .resp s t true := by
            intro j hj
            have hh := hprev (j + 1) (Nat.succ_lt_succ hj)
            rwa [show i0 + (j + 1) = i0 + 1 + j by omega] at hh
          have hexn2 : post (i0 + 1 + k2) .report = .exn m := by
            rwa [show i0 + (k2 + 1) = i0 + 1 + k2 by omega] at hexn
          have hrec := ih (i0 + 1) k2 m hk2 hprev2 hexn2
          simp only [runReportImpersonators, processTarget_ok (post i0) imp s t hr, hrec,
            List.take_succ_cons, pipelineLog, List.getD_cons_succ, List.append_assoc]
          rw [show i0 + (k2 + 1) = i0 + 1 + k2 by omega]

/-- The spec-side log always holds three entries per target. -/
theorem pipelineLog_length (post : Nat → ActionKind → CallResult) :
    ∀ (targets : List String) (i : Nat),
      (pipelineLog post i targets).length = 3 * targets.length := by
  intro targets
  induction targets with
  | nil => intro i; rfl
  | cons imp rest ih =>
      intro i
      simp only [pipelineLog, List.length_append, ih, targetEntries, List.length_cons,
        List.length_nil]
      omega

/-- C2: for every target in list order the generator pipeline attempts
mute, then block, then report as independent calls — the outcome log is
exactly the concatenation of per-target triples, each depending only on
that target's own responses — so it holds three entries per target
(nine for three targets), provided every report call returns a response
with a parseable body (a raising report call is C1's defect, not
covered by this count). -/
theorem pipeline_order_and_count (post : Nat → ActionKind → CallResult)
    (targets : List String)
    (h : ∀ k, k < targets.length → ∃ s t, post k .report = .resp s t true) :
    runReportImpersonators post 0 targets = (pipelineLog post 0 targets, none) ∧
    (pipelineLog post 0 targets).length = 3 * targets.length := by
  refine ⟨runReport_complete post targets 0 ?_, pipelineLog_length post targets 0⟩
  intro k hk
  simpa [Nat.zero_add] using h k hk
/-- Witness for C2: three targets with target 2's mute returning
HTTP 403 and every other call returning 200 yield exactly nine entries,
in target order with mute, block, report per target; target 2's mute
entry is the only failure and targets 1 and 3 are unaffected. -/
theorem pipeline_order_and_count_witness :
    runReportImpersonators
        (fun k a => if a == ActionKind.mute && k == 1 then CallResult.resp 403 "Forbidden" true
          else CallResult.resp 200 "ok" true) 0 ["impA", "impB", "impC"] =
      ([.succeeded .mute "impA", .succeeded .block "impA", .succeeded .report "impA",
        .failed .mute "impB" (.httpStatusError 403), .succeeded .block "impB",
        .succeeded .report "impB",
        .succeeded .mute "impC", .succeeded .block "impC", .succeeded .report "impC"],
       none) := by
  have h := (pipeline_order_and_count
      (fun k a => if a == ActionKind.mute && k == 1 then CallResult.resp 403 "Forbidden" true
        else CallResult.resp 200 "ok" true) ["impA", "impB", "impC"]
      (fun k _ => ⟨200, "ok", rfl⟩)).1
  rw [h]
  rfl

/-- C1 (amended): transport errors and HTTP 400-599 responses on the
mute and block calls are recorded as failed outcomes and the run
continues, a non-200 report response is recorded as a failed outcome and
the run continues, and a run whose report calls all return parseable
responses processes every target; but a transport error raised by the
`k`-th report call (whose POST is outside the `try`) aborts the run
after that target's mute and block entries, recording no failed report
outcome and skipping all later targets. -/
theorem pipeline_partial_failure_amended (post : Nat → ActionKind → CallResult)
    (targets : List String) :
    ((∀ k, k < targets.length → ∃ s t, post k .report = .resp s t true) →
      runReportImpersonators post 0 targets = (pipelineLog post 0 targets, none)) ∧
    (∀ imp msg, guardedActionEntry .mute imp (.exn msg) =
        .failed .mute imp (.transportError msg)) ∧
    (∀ imp s t j, 400 ≤ s → s < 600 →
        guardedActionEntry .block imp (.resp s t j) =
          .failed .block imp (.httpStatusError s)) ∧
    (∀ imp s t j, s ≠ 200 →
        reportEntry imp (.resp s t j) = .failed .report imp (.non200 s t)) ∧
    (∀ k m, k < targets.length →
      (∀ j, j < k → ∃ s t, post j .report = .resp s t true) →
      post k .report = .exn m →
      runReportImpersonators post 0 targets =
        (pipelineLog post 0 (targets.take k) ++
          [guardedActionEntry .mute (targets.getD k "") (post k .mute),
           guardedActionEntry .block (targets.getD k "") (post k .block)], some m)) := by
  refine ⟨?_, fun imp msg => rfl, ?_, ?_, ?_⟩
  · intro h
    exact runReport_complete post targets 0 (fun k hk => by
      simpa [Nat.zero_add] using h k hk)
  · intro imp s t j h1 h2
    have hfail : raiseForStatusFails s = true := by
      simp only [raiseForStatusFails, Bool.and_eq_true, decide_eq_true_eq]
      omega
    simp [guardedActionEntry, hfail]
  · intro imp s t j h1
    simp [reportEntry, h1]
  · intro k m hk hprev hexn
    have hres := runReport_aborts post targets 0 k m hk
      (fun j hj => by simpa [Nat.zero_add] using hprev j hj)
      (by simpa [Nat.zero_add] using hexn)
    simpa [Nat.zero_add] using hres
/-- Witness for C1's amended claim: with three targets where target 2's
report call raises a transport error and every other call returns 200,
the run aborts after target 2's mute and block entries: five entries,
no failed-report record, target 3 skipped. -/
theorem pipeline_partial_failure_amended_witness :
    runReportImpersonators
        (fun k a => if a == ActionKind.report && k == 1 then CallResult.exn "ConnectionError"
          else CallResult.resp 200 "ok" true) 0 ["impA", "impB", "impC"] =
      ([.succeeded .mute "impA", .succeeded .block "impA", .succeeded .report "impA",
        .succeeded .mute "impB", .succeeded .block "impB"], some "ConnectionError") := by
  have h := (pipeline_partial_failure_amended
      (fun k a => if a == ActionKind.report && k == 1 then CallResult.exn "ConnectionError"
        else CallResult.resp 200 "ok" true) ["impA", "impB", "impC"]).2.2.2.2
      1 "ConnectionError" (by decide)
      (fun j hj => ⟨200, "ok", by
        have hj0 : j = 0 := by omega
        subst hj0
        rfl⟩)
      rfl
  rw [h]
  rfl

/-- Counterexample for C1 as stated: a transport error during the first
target's report call is not recorded as a failed outcome — the run
aborts with only that target's mute and block entries, and the second
target is never attempted (two entries instead of six). -/
theorem pipeline_transport_error_aborts_counterexample :
    runReportImpersonators
        (fun k a => if a == ActionKind.report && k == 0 then CallResult.exn "ConnectionError"
          else CallResult.resp 200 "ok" true) 0 ["impA", "impB"] =
      ([.succeeded .mute "impA", .succeeded .block "impA"], some "ConnectionError") ∧
    ([Entry.succeeded .mute "impA", Entry.succeeded .block "impA"].length ≠
      3 * ["impA", "impB"].length) ∧
    (some "ConnectionError" ≠ (none : Option String)) := by
  refine ⟨rfl, by decide, by decide⟩
